import Mathlib

/-!
Verification of the Brevti study-companion core: the data model, the
recommendation engine, the progress aggregator, the session summary
calculator, the quiz / mock-exam session transitions and the PDF-QA
backend handler, shallowly embedded from the TypeScript sources.
-/

/-! ## Data model (src: db/types consumers; SQLite rows use Int flags) -/

structure Lesson where
  id : Nat
  subject_id : Nat
  is_completed : Int
deriving DecidableEq

structure Exercise where
  id : Nat
  lesson_id : Nat
  correct_index : Nat
deriving DecidableEq

/-- One row of the append-only Attempt log, as written by `saveAttempt`. -/
structure SavedAttempt where
  exercise_id : Nat
  chosen_index : Nat
  is_correct : Bool
  time_spent : Nat
  timestamp : Int
deriving DecidableEq

/-! ## Session summary: days until exam (src/unnamed/part_001, lines 41-50)

JS `Date` arithmetic is modelled with millisecond timestamps and the local
time zone as a fixed zero offset, so `setHours(0,0,0,0)` floors a timestamp
to the start of its day. -/

def msPerDay : Int := 86400000

/-- JS `d.setHours(0, 0, 0, 0)`: floor a timestamp to local midnight. -/
def startOfDay (t : Int) : Int := msPerDay * (t.fdiv msPerDay)

/-- The calendar-day index of a timestamp. -/
def dayIndex (t : Int) : Int := t.fdiv msPerDay

/-- JS `Math.ceil(a / b)` for integer `a` and positive integer `b`. -/
def ceilDiv (a b : Int) : Int := -((-a).fdiv b)

/-- src/unnamed/part_001 lines 41-50: the `daysUntilExam` memo.
`none` models an absent (falsy) `settings.exam_date`. -/
def daysUntilExam (exam_date : Option Int) (now : Int) : Int :=
  match exam_date with
  | none => 0
  | some e =>
      let diffTime := startOfDay e - startOfDay now
      let diffDays := ceilDiv diffTime msPerDay
      max 0 diffDays

/-! ## Progress aggregator (src/unnamed/part_002, lines 44-45) -/

/-- src/unnamed/part_002 line 44: `lessons.filter((l) => l.is_completed === 1).length`. -/
def completedLessons (lessons : List Lesson) : Nat :=
  (lessons.filter (fun l => l.is_completed == 1)).length

/-- src/unnamed/part_002 line 45:
`lessons.length > 0 ? (completedLessons / lessons.length) * 100 : 0`. -/
def subjectProgress (lessons : List Lesson) : ℚ :=
  if 0 < lessons.length then
    ((completedLessons lessons : ℚ) / lessons.length) * 100
  else 0

/-! ### Lemmas for days-until-exam -/

theorem ceilDiv_mul_cancel (d : Int) : ceilDiv (msPerDay * d) msPerDay = d := by
  unfold ceilDiv msPerDay
  rw [show -(86400000 * d) = 86400000 * (-d) by ring]
  rw [Int.mul_fdiv_cancel_left _ (by norm_num)]
  ring

theorem startOfDay_sub (e t : Int) :
    startOfDay e - startOfDay t = msPerDay * (dayIndex e - dayIndex t) := by
  unfold startOfDay dayIndex
  ring

/-- C4: days-until-exam is never negative; it is 0 when the exam date is
absent or its calendar day is today or earlier; and when the exam day is
exactly `k` calendar days ahead it equals `k`. -/
theorem daysUntilExam_spec (e : Option Int) (now : Int) :
    0 ≤ daysUntilExam e now
    ∧ daysUntilExam none now = 0
    ∧ (∀ t : Int, dayIndex t ≤ dayIndex now → daysUntilExam (some t) now = 0)
    ∧ (∀ (t : Int) (k : Nat), dayIndex t = dayIndex now + k →
        daysUntilExam (some t) now = k) := by
  refine ⟨?_, rfl, ?_, ?_⟩
  · cases e with
    | none => simp [daysUntilExam]
    | some t =>
        simp only [daysUntilExam]
        exact le_max_left 0 _
  · intro t ht
    simp only [daysUntilExam, startOfDay_sub, ceilDiv_mul_cancel]
    omega
  · intro t k hk
    simp only [daysUntilExam, startOfDay_sub, ceilDiv_mul_cancel, hk]
    omega

theorem daysUntilExam_spec_witness :
    dayIndex (10 * 86400000 + 3600000) = dayIndex 0 + (10 : Nat)
    ∧ daysUntilExam (some (10 * 86400000 + 3600000)) 0 = 10 := by
  constructor
  · decide
  · exact (daysUntilExam_spec (some (10 * 86400000 + 3600000)) 0).2.2.2
      (10 * 86400000 + 3600000) 10 (by decide)

/-! ### Lemmas for the progress aggregator -/

theorem completedLessons_le_length (lessons : List Lesson) :
    completedLessons lessons ≤ lessons.length :=
  List.length_filter_le _ lessons

/-- C5: a subject's progress percentage is the completed-lesson count over
the total lesson count times 100, is 0 for a subject with no lessons, and
always lies in [0, 100]. -/
theorem subjectProgress_spec (lessons : List Lesson) :
    (lessons.length = 0 → subjectProgress lessons = 0)
    ∧ (0 < lessons.length →
        subjectProgress lessons
          = ((completedLessons lessons : ℚ) / lessons.length) * 100)
    ∧ 0 ≤ subjectProgress lessons
    ∧ subjectProgress lessons ≤ 100 := by
  refine ⟨?_, ?_, ?_, ?_⟩
  · intro h
    simp [subjectProgress, h]
  · intro h
    simp [subjectProgress, h]
  · unfold subjectProgress
    split
    · positivity
    · norm_num
  · unfold subjectProgress
    split
    · rename_i h
      have hlen : (0 : ℚ) < lessons.length := by exact_mod_cast h
      have hle : (completedLessons lessons : ℚ) ≤ lessons.length := by
        exact_mod_cast completedLessons_le_length lessons
      have hdiv : (completedLessons lessons : ℚ) / lessons.length ≤ 1 :=
        (div_le_one hlen).mpr hle
      nlinarith
    · norm_num

theorem subjectProgress_spec_witness :
    ([] : List Lesson).length = 0 ∧ subjectProgress [] = 0 :=
  ⟨rfl, (subjectProgress_spec []).1 rfl⟩

/-! ## Recommendation engine

Modelled from the spec: `getRecommendedLessons` lives in `@/db/database`,
which is not among the source files; only its callers are. The definitions
below follow spec section 4.2 word by word: latest attempt per exercise,
weakness score = (unattempted + latest-incorrect) / total, exclusion of
zero-exercise lessons, stable sort by score descending (ties keep the
lessons' natural display order), and truncation to the requested count. -/

/-- Modelled from the spec: the most recent Attempt for one exercise
(attempts are ordered by timestamp; only the latest one counts). -/
def latestAttempt (attempts : List SavedAttempt) (eid : Nat) : Option SavedAttempt :=
  (attempts.filter (fun a => a.exercise_id == eid)).foldl
    (fun acc a =>
      match acc with
      | none => some a
      | some b => if b.timestamp < a.timestamp then some a else some b)
    none

/-- Modelled from the spec: an exercise counts toward weakness when it has
no attempt or its most recent attempt is incorrect. -/
def needsReview (attempts : List SavedAttempt) (e : Exercise) : Bool :=
  match latestAttempt attempts e.id with
  | none => true
  | some a => !a.is_correct

/-- The exercises belonging to one lesson. -/
def lessonExercises (exercises : List Exercise) (lessonId : Nat) : List Exercise :=
  exercises.filter (fun e => e.lesson_id == lessonId)

/-- Modelled from the spec: weakness score of a lesson, section 4.2 step 2. -/
def weaknessScore (exercises : List Exercise) (attempts : List SavedAttempt)
    (lessonId : Nat) : ℚ :=
  if (lessonExercises exercises lessonId).length = 0 then 0
  else ((lessonExercises exercises lessonId).countP (needsReview attempts) : ℚ)
        / (lessonExercises exercises lessonId).length

/-- Modelled from the spec: lessons with at least one exercise qualify. -/
def qualifyingLessons (lessons : List Lesson) (exercises : List Exercise) : List Lesson :=
  lessons.filter (fun l => decide (0 < (lessonExercises exercises l.id).length))

/-- The comparison used to rank candidates: scores descending. Ties are
broken by the stable sort keeping the input (display) order. -/
def scoreGE (exercises : List Exercise) (attempts : List SavedAttempt)
    (a b : Lesson) : Bool :=
  decide (weaknessScore exercises attempts b.id ≤ weaknessScore exercises attempts a.id)

/-- Modelled from the spec: `getRecommendedLessons`, section 4.2 steps 1-5. -/
def recommendLessons (lessons : List Lesson) (exercises : List Exercise)
    (attempts : List SavedAttempt) (n : Int) : List Lesson :=
  ((qualifyingLessons lessons exercises).mergeSort (scoreGE exercises attempts)).take n.toNat

/-- Scenario data for C1: lesson 1 has four exercises; exercise 101's latest
attempt is incorrect (an older one was correct), exercises 102 and 103 have
correct latest attempts, exercise 104 was never attempted. -/
def scenarioExercises : List Exercise :=
  [⟨101, 1, 0⟩, ⟨102, 1, 0⟩, ⟨103, 1, 0⟩, ⟨104, 1, 0⟩]

def scenarioAttempts : List SavedAttempt :=
  [⟨101, 1, false, 5, 200⟩, ⟨101, 0, true, 5, 100⟩,
   ⟨102, 0, true, 5, 150⟩,
   ⟨103, 0, true, 5, 180⟩, ⟨103, 1, false, 5, 90⟩]

theorem weaknessScore_nonneg (exercises : List Exercise) (attempts : List SavedAttempt)
    (lessonId : Nat) : 0 ≤ weaknessScore exercises attempts lessonId := by
  unfold weaknessScore
  split
  · exact le_refl 0
  · positivity

theorem weaknessScore_scenario :
    weaknessScore scenarioExercises scenarioAttempts 1 = 1/2 := by
  have hc : (lessonExercises scenarioExercises 1).countP (needsReview scenarioAttempts) = 2 := by
    rfl
  have hl : (lessonExercises scenarioExercises 1).length = 4 := by rfl
  simp only [weaknessScore, hc, hl]
  norm_num

/-- C1: for a lesson with at least one exercise the weakness score is
(unattempted + latest-incorrect) / total, lies in [0, 1], is exactly 1 when
no exercise of the lesson has any attempt, and the four-exercise scenario
(one incorrect latest, one never attempted, two correct latest) scores 1/2. -/
theorem weaknessScore_spec (exercises : List Exercise) (attempts : List SavedAttempt)
    (lessonId : Nat) :
    (0 < (lessonExercises exercises lessonId).length →
      weaknessScore exercises attempts lessonId
        = ((lessonExercises exercises lessonId).countP (needsReview attempts) : ℚ)
            / (lessonExercises exercises lessonId).length
      ∧ 0 ≤ weaknessScore exercises attempts lessonId
      ∧ weaknessScore exercises attempts lessonId ≤ 1)
    ∧ ((∀ e ∈ lessonExercises exercises lessonId, latestAttempt attempts e.id = none) →
        0 < (lessonExercises exercises lessonId).length →
        weaknessScore exercises attempts lessonId = 1)
    ∧ weaknessScore scenarioExercises scenarioAttempts 1 = 1/2 := by
  refine ⟨?_, ?_, weaknessScore_scenario⟩
  · intro h
    have hne : (lessonExercises exercises lessonId).length ≠ 0 := Nat.pos_iff_ne_zero.mp h
    refine ⟨by simp [weaknessScore, hne], weaknessScore_nonneg _ _ _, ?_⟩
    simp only [weaknessScore, hne, if_false]
    have hlen : (0 : ℚ) < (lessonExercises exercises lessonId).length := by exact_mod_cast h
    refine (div_le_one hlen).mpr ?_
    exact_mod_cast List.countP_le_length (needsReview attempts)
  · intro hnone h
    have hne : (lessonExercises exercises lessonId).length ≠ 0 := Nat.pos_iff_ne_zero.mp h
    have hall : (lessonExercises exercises lessonId).countP (needsReview attempts)
        = (lessonExercises exercises lessonId).length := by
      rw [List.countP_eq_length]
      intro e he
      simp [needsReview, hnone e he]
    simp only [weaknessScore, hne, if_false, hall]
    have hlen : ((lessonExercises exercises lessonId).length : ℚ) ≠ 0 := by
      exact_mod_cast hne
    exact div_self hlen

theorem weaknessScore_spec_witness :
    0 < (lessonExercises scenarioExercises 1).length
    ∧ 0 ≤ weaknessScore scenarioExercises scenarioAttempts 1
    ∧ weaknessScore scenarioExercises scenarioAttempts 1 ≤ 1 :=
  ⟨by decide, ((weaknessScore_spec scenarioExercises scenarioAttempts 1).1 (by decide)).2⟩

/-- C3: the engine returns min(N, qualifying-count) lessons; N at most 0
yields the empty list. -/
theorem recommendLessons_length_spec (lessons : List Lesson) (exercises : List Exercise)
    (attempts : List SavedAttempt) (n : Int) :
    (recommendLessons lessons exercises attempts n).length
      = min n.toNat (qualifyingLessons lessons exercises).length
    ∧ (n ≤ 0 → recommendLessons lessons exercises attempts n = []) := by
  constructor
  · simp [recommendLessons]
  · intro hn
    have : n.toNat = 0 := Int.toNat_eq_zero.mpr hn
    simp [recommendLessons, this]

theorem recommendLessons_length_spec_witness :
    ((-2 : Int) ≤ 0) ∧ recommendLessons [⟨1, 1, 0⟩] scenarioExercises scenarioAttempts (-2) = [] :=
  ⟨by decide, (recommendLessons_length_spec [⟨1, 1, 0⟩] scenarioExercises scenarioAttempts (-2)).2 (by decide)⟩

/-! ### Ordering of the recommendation output (C2) -/

theorem scoreGE_trans (exercises : List Exercise) (attempts : List SavedAttempt) :
    ∀ a b c : Lesson, scoreGE exercises attempts a b → scoreGE exercises attempts b c →
      scoreGE exercises attempts a c := by
  intro a b c hab hbc
  simp only [scoreGE, decide_eq_true_eq] at hab hbc ⊢
  exact le_trans hbc hab

theorem scoreGE_total (exercises : List Exercise) (attempts : List SavedAttempt) :
    ∀ a b : Lesson, scoreGE exercises attempts a b || scoreGE exercises attempts b a := by
  intro a b
  simp only [scoreGE, Bool.or_eq_true, decide_eq_true_eq]
  exact le_total _ _

/-- In a list sorted by a nonnegative key in descending order, an element
whose key is 0 cannot lie in the first `k` positions when at least `k`
elements of the list have a positive key. -/
theorem zero_key_not_mem_take {α : Type} {S : List α} {f : α → ℚ}
    (hp : S.Pairwise (fun a b => f b ≤ f a))
    {L : α} (hL0 : f L = 0) {k : Nat}
    (hk : k ≤ S.countP (fun a => decide (0 < f a))) :
    L ∉ S.take k := by
  intro hmem
  have hsplit : S.take k ++ S.drop k = S := List.take_append_drop k S
  have hp2 : (S.take k ++ S.drop k).Pairwise (fun a b => f b ≤ f a) := by
    rw [hsplit]; exact hp
  rw [List.pairwise_append] at hp2
  obtain ⟨-, -, hrel⟩ := hp2
  have hdrop : (S.drop k).countP (fun a => decide (0 < f a)) = 0 := by
    rw [List.countP_eq_zero]
    intro b hb
    have h1 : f b ≤ f L := hrel L hmem b hb
    simp only [decide_eq_true_eq]
    intro hpos
    rw [hL0] at h1
    linarith
  have hPL : ¬ ((fun a => decide (0 < f a)) L = true) := by simp [hL0]
  have hlt : (S.take k).countP (fun a => decide (0 < f a)) < (S.take k).length := by
    rcases Nat.lt_or_ge ((S.take k).countP (fun a => decide (0 < f a)))
        (S.take k).length with h | h
    · exact h
    · exfalso
      have heq : (S.take k).countP (fun a => decide (0 < f a)) = (S.take k).length :=
        Nat.le_antisymm (List.countP_le_length _) h
      exact hPL (List.countP_eq_length.mp heq L hmem)
  have hlen : (S.take k).length ≤ k := by
    rw [List.length_take]
    exact min_le_left _ _
  have hcS : S.countP (fun a => decide (0 < f a))
      = (S.take k).countP (fun a => decide (0 < f a))
        + (S.drop k).countP (fun a => decide (0 < f a)) := by
    conv_lhs => rw [← hsplit]
    rw [List.countP_append]
  omega

/-- C2: the recommendation output is ordered by weakness score descending
(ties keep the candidates' natural display order because the sort is
stable), and a lesson whose score is 0 — all exercises most recently
answered correctly — never appears while at least N candidate lessons have
a positive score. -/
theorem recommendLessons_ordering (lessons : List Lesson) (exercises : List Exercise)
    (attempts : List SavedAttempt) (n : Int) :
    (recommendLessons lessons exercises attempts n).Pairwise
      (fun a b => weaknessScore exercises attempts b.id ≤ weaknessScore exercises attempts a.id)
    ∧ ∀ L : Lesson,
        weaknessScore exercises attempts L.id = 0 →
        n.toNat ≤ (qualifyingLessons lessons exercises).countP
            (fun l => decide (0 < weaknessScore exercises attempts l.id)) →
        L ∉ recommendLessons lessons exercises attempts n := by
  have hsorted := List.sorted_mergeSort (scoreGE_trans exercises attempts)
      (scoreGE_total exercises attempts) (qualifyingLessons lessons exercises)
  have hpair : ((qualifyingLessons lessons exercises).mergeSort
      (scoreGE exercises attempts)).Pairwise
      (fun a b => weaknessScore exercises attempts b.id
        ≤ weaknessScore exercises attempts a.id) := by
    refine hsorted.imp ?_
    intro a b hab
    simpa [scoreGE] using hab
  constructor
  · exact hpair.sublist (List.take_sublist _ _)
  · intro L hL0 hcount
    refine zero_key_not_mem_take hpair hL0 ?_
    rw [(List.mergeSort_perm (qualifyingLessons lessons exercises)
        (scoreGE exercises attempts)).countP_eq]
    exact hcount

/-- Witness data for C2: lesson 1's single exercise was most recently
answered correctly (score 0); lesson 2's single exercise was never
attempted (score 1). -/
def wLessons : List Lesson := [⟨1, 1, 0⟩, ⟨2, 2, 0⟩]

def wExercises : List Exercise := [⟨201, 1, 0⟩, ⟨202, 2, 0⟩]

def wAttempts : List SavedAttempt := [⟨201, 0, true, 5, 10⟩]

theorem recommendLessons_ordering_witness :
    weaknessScore wExercises wAttempts 1 = 0
    ∧ (1 : Int).toNat ≤ (qualifyingLessons wLessons wExercises).countP
        (fun l => decide (0 < weaknessScore wExercises wAttempts l.id))
    ∧ (⟨1, 1, 0⟩ : Lesson) ∉ recommendLessons wLessons wExercises wAttempts 1 := by
  have hc1 : (lessonExercises wExercises 1).countP (needsReview wAttempts) = 0 := rfl
  have hl1 : (lessonExercises wExercises 1).length = 1 := rfl
  have h1 : weaknessScore wExercises wAttempts 1 = 0 := by
    simp only [weaknessScore, hc1, hl1]
    norm_num
  have hc2 : (lessonExercises wExercises 2).countP (needsReview wAttempts) = 1 := rfl
  have hl2 : (lessonExercises wExercises 2).length = 1 := rfl
  have h2 : weaknessScore wExercises wAttempts 2 = 1 := by
    simp only [weaknessScore, hc2, hl2]
    norm_num
  have hq : qualifyingLessons wLessons wExercises = wLessons := rfl
  have hcount : (1 : Int).toNat ≤ (qualifyingLessons wLessons wExercises).countP
      (fun l => decide (0 < weaknessScore wExercises wAttempts l.id)) := by
    rw [hq]
    show 1 ≤ List.countP _ [(⟨1, 1, 0⟩ : Lesson), ⟨2, 2, 0⟩]
    simp only [List.countP_cons, List.countP_nil]
    have e1 : (decide (0 < weaknessScore wExercises wAttempts (⟨1, 1, 0⟩ : Lesson).id)) = false := by
      simp [h1]
    have e2 : (decide (0 < weaknessScore wExercises wAttempts (⟨2, 2, 0⟩ : Lesson).id)) = true := by
      simp [h2]
    simp [e1, e2]
  exact ⟨h1, hcount,
    (recommendLessons_ordering wLessons wExercises wAttempts 1).2 ⟨1, 1, 0⟩ h1 hcount⟩

/-! ## Mock exam finish (src/unnamed/part_003) -/

/-- src/unnamed/part_003 lines 88-101, `handleFinish`: one `saveAttempt` row
per exercise whose answer is non-null, each with `timeSpent` 0, stamped at
the write time. Index-aligned access `answers[i]` is modelled by zipping. -/
def mockFinishAttempts (now : Int) (exercises : List Exercise)
    (answers : List (Option Nat)) : List SavedAttempt :=
  (exercises.zip answers).filterMap (fun p =>
    p.2.map (fun c => (⟨p.1.id, c, c == p.1.correct_index, 0, now⟩ : SavedAttempt)))

/-- src/unnamed/part_003 lines 110-112, `correctCount`: a null answer never
equals the correct index, so unanswered exercises count as incorrect. -/
def mockCorrectCount (exercises : List Exercise) (answers : List (Option Nat)) : Nat :=
  (exercises.zip answers).foldl
    (fun c p => c + if p.2 == some p.1.correct_index then 1 else 0) 0

theorem finishRow_length (now : Int) (ps : List (Exercise × Option Nat)) :
    (ps.filterMap (fun p =>
        p.2.map (fun c => (⟨p.1.id, c, c == p.1.correct_index, 0, now⟩ : SavedAttempt)))).length
      = ps.countP (fun p => p.2.isSome) := by
  induction ps with
  | nil => rfl
  | cons p ps ih =>
      cases h : p.2 with
      | none => simp [List.filterMap_cons, List.countP_cons, h, ih]
      | some c => simp [List.filterMap_cons, List.countP_cons, h, ih]

theorem foldl_add_count (g : Exercise × Option Nat → Bool) :
    ∀ (ps : List (Exercise × Option Nat)) (n : Nat),
      ps.foldl (fun c p => c + if g p then 1 else 0) n = n + ps.countP g := by
  intro ps
  induction ps with
  | nil => intro n; simp
  | cons p ps ih =>
      intro n
      rw [List.foldl_cons, ih, List.countP_cons]
      by_cases h : g p
      · simp only [h, if_true]
        omega
      · simp only [h, if_false]
        omega

/-- C6: at finish, an Attempt row is written for exactly the exercises whose
chosen answer is non-null; every written row originates from a non-null
answer; and the session result counts exactly the exercises whose (non-null)
answer equals the correct index, so unanswered exercises are scored
incorrect yet write no row. -/
theorem mockFinish_spec (now : Int) (exercises : List Exercise)
    (answers : List (Option Nat)) :
    (mockFinishAttempts now exercises answers).length
      = (exercises.zip answers).countP (fun p => p.2.isSome)
    ∧ (∀ a ∈ mockFinishAttempts now exercises answers,
        ∃ p ∈ exercises.zip answers,
          p.2 = some a.chosen_index ∧ a.exercise_id = p.1.id)
    ∧ mockCorrectCount exercises answers
      = (exercises.zip answers).countP (fun p => p.2 == some p.1.correct_index)
    ∧ mockCorrectCount exercises answers
      ≤ (exercises.zip answers).countP (fun p => p.2.isSome) := by
  have hcc : mockCorrectCount exercises answers
      = (exercises.zip answers).countP (fun p => p.2 == some p.1.correct_index) := by
    unfold mockCorrectCount
    rw [foldl_add_count]
    omega
  refine ⟨finishRow_length now _, ?_, hcc, ?_⟩
  · intro a ha
    rw [mockFinishAttempts, List.mem_filterMap] at ha
    obtain ⟨p, hpmem, hp⟩ := ha
    refine ⟨p, hpmem, ?_⟩
    cases h2 : p.2 with
    | none => rw [h2] at hp; exact absurd hp (by simp)
    | some c =>
        rw [h2] at hp
        have ha2 : (⟨p.1.id, c, c == p.1.correct_index, 0, now⟩ : SavedAttempt) = a := by
          simpa using hp
        rw [← ha2]
        exact ⟨rfl, rfl⟩
  · rw [hcc]
    refine List.countP_mono_left ?_
    intro p _ hp
    cases h2 : p.2 with
    | none => rw [h2] at hp; exact absurd hp (by simp)
    | some c => simp [h2]

/-- Concrete mock session used by witnesses: three exercises, the first two
answered (both correctly), the third unanswered at cutoff. -/
def cExercises : List Exercise := [⟨1, 1, 0⟩, ⟨2, 1, 1⟩, ⟨3, 1, 0⟩]

def cAnswers : List (Option Nat) := [some 0, some 1, none]

theorem mockFinish_spec_witness :
    (⟨1, 0, true, 0, 7⟩ : SavedAttempt) ∈ mockFinishAttempts 7 cExercises cAnswers
    ∧ ∃ p ∈ cExercises.zip cAnswers,
        p.2 = some (⟨1, 0, true, 0, 7⟩ : SavedAttempt).chosen_index
        ∧ (⟨1, 0, true, 0, 7⟩ : SavedAttempt).exercise_id = p.1.id :=
  ⟨by decide, (mockFinish_spec 7 cExercises cAnswers).2.1 _ (by decide)⟩

/-! ## Quiz session commit (src/app/quiz.tsx) -/

/-- The component state of `QuizScreen` that `handleCheck` reads and
writes, together with the Attempt log it appends to. -/
structure QuizState where
  exercises : List Exercise
  currentIndex : Nat
  selectedIndex : Option Nat
  showResult : Bool
  correctCount : Nat
  attempts : List SavedAttempt
deriving DecidableEq

/-- src/app/quiz.tsx lines 75-90, `handleCheck`: returns early when no
option is selected or no current exercise exists; otherwise freezes the
result view, updates the correct counter and appends one Attempt row.
The code has no guard on `showResult`, so a repeated call writes again. -/
def handleCheck (now : Int) (timeSpent : Nat) (s : QuizState) : QuizState :=
  match s.exercises[s.currentIndex]?, s.selectedIndex with
  | some ex, some sel =>
      { s with
        showResult := true
        correctCount := if sel == ex.correct_index then s.correctCount + 1 else s.correctCount
        attempts := s.attempts ++ [⟨ex.id, sel, sel == ex.correct_index, timeSpent, now⟩] }
  | _, _ => s

/-- A quiz mid-session: one exercise, option 0 selected, nothing written. -/
def quizStart : QuizState :=
  { exercises := [⟨301, 1, 0⟩], currentIndex := 0, selectedIndex := some 0,
    showResult := false, correctCount := 0, attempts := [] }

/-- C7 fails on the code: `handleCheck` never checks `showResult`, so two
commit calls on the same exercise append two Attempt rows. -/
theorem handleCheck_double_write :
    ((handleCheck 0 3 quizStart).attempts).length = 1
    ∧ (handleCheck 0 3 quizStart).showResult = true
    ∧ ((handleCheck 0 3 (handleCheck 0 3 quizStart)).attempts).length = 2 := by
  decide

/-! ## Mock exam finish idempotence (src/unnamed/part_003) -/

/-- The component state of `MockExamScreen` that `handleFinish` reads and
writes, together with the Attempt log it appends to. -/
structure MockState where
  exercises : List Exercise
  answers : List (Option Nat)
  isComplete : Bool
  attempts : List SavedAttempt
deriving DecidableEq

/-- src/unnamed/part_003 lines 88-101, `handleFinish` as a state
transition: it appends one row per answered exercise and marks the session
complete. The code has no guard on `isComplete`. -/
def handleFinish (now : Int) (s : MockState) : MockState :=
  { s with
    attempts := s.attempts ++ mockFinishAttempts now s.exercises s.answers
    isComplete := true }

/-- An already-completed mock session whose single answered exercise was
logged by the first finish. -/
def mockDone : MockState :=
  { exercises := [⟨401, 1, 0⟩], answers := [some 0], isComplete := true,
    attempts := [⟨401, 0, true, 0, 0⟩] }

/-- C8 fails on the code: invoking `handleFinish` on an already-completed
session appends the answered exercises' Attempt rows a second time, so it
is not a no-op. -/
theorem handleFinish_after_complete :
    mockDone.isComplete = true
    ∧ ((handleFinish 0 mockDone).attempts).length = mockDone.attempts.length + 1
    ∧ handleFinish 0 mockDone ≠ mockDone := by
  decide

/-! ## Minutes studied today -/

/-- Modelled from the spec: the seconds part of `getTodayStudyMinutes`
(absent from src/) — time-spent summed over the Attempts whose timestamp
falls on the current local calendar day. -/
def todayStudySeconds (attempts : List SavedAttempt) (now : Int) : Nat :=
  ((attempts.filter (fun a => startOfDay a.timestamp == startOfDay now)).map
      (fun a => a.time_spent)).sum

/-- Modelled from the spec: `getTodayStudyMinutes` (absent from src/),
the day's attempt seconds expressed in minutes. -/
def todayStudyMinutes (attempts : List SavedAttempt) (now : Int) : ℚ :=
  (todayStudySeconds attempts now : ℚ) / 60

/-- C10: every Attempt written by the mock-exam finish carries a time-spent
of exactly 0 seconds, so appending them to the log leaves the
minutes-studied-today figure unchanged. -/
theorem mockFinish_zero_time (now clock : Int) (exercises : List Exercise)
    (answers : List (Option Nat)) (log : List SavedAttempt) :
    (∀ a ∈ mockFinishAttempts now exercises answers, a.time_spent = 0)
    ∧ todayStudyMinutes (log ++ mockFinishAttempts now exercises answers) clock
        = todayStudyMinutes log clock := by
  have hzero : ∀ a ∈ mockFinishAttempts now exercises answers, a.time_spent = 0 := by
    intro a ha
    rw [mockFinishAttempts, List.mem_filterMap] at ha
    obtain ⟨p, -, hp⟩ := ha
    cases h2 : p.2 with
    | none => rw [h2] at hp; exact absurd hp (by simp)
    | some c =>
        rw [h2] at hp
        have ha2 : (⟨p.1.id, c, c == p.1.correct_index, 0, now⟩ : SavedAttempt) = a := by
          simpa using hp
        rw [← ha2]
  refine ⟨hzero, ?_⟩
  have hsec : todayStudySeconds (log ++ mockFinishAttempts now exercises answers) clock
      = todayStudySeconds log clock := by
    unfold todayStudySeconds
    rw [List.filter_append, List.map_append, List.sum_append]
    have hz : (((mockFinishAttempts now exercises answers).filter
        (fun a => startOfDay a.timestamp == startOfDay clock)).map
          (fun a => a.time_spent)).sum = 0 := by
      refine List.sum_eq_zero ?_
      intro x hx
      rw [List.mem_map] at hx
      obtain ⟨a, ha, hax⟩ := hx
      rw [← hax]
      exact hzero a (List.mem_of_mem_filter ha)
    omega
  rw [todayStudyMinutes, todayStudyMinutes, hsec]

theorem mockFinish_zero_time_witness :
    (⟨2, 1, true, 0, 9⟩ : SavedAttempt) ∈ mockFinishAttempts 9 cExercises cAnswers
    ∧ (⟨2, 1, true, 0, 9⟩ : SavedAttempt).time_spent = 0 :=
  ⟨by decide, (mockFinish_zero_time 9 0 cExercises cAnswers []).1 _ (by decide)⟩

/-! ## PDF question-answer endpoint (src/unnamed/part_000, lines 66-115) -/

/-- JS falsiness of a possibly-missing string field: absent or empty. -/
def isBlank : Option String → Bool
  | none => true
  | some s => s == ""

/-- The body of `POST /api/pdf/qa`. -/
structure QaRequest where
  question : Option String
  contextText : Option String
  answerLang : Option String
deriving DecidableEq

/-- src/unnamed/part_000 lines 66-115, the `/api/pdf/qa` handler. The
`upstream` argument models everything inside the `try` block after
validation: `Except.error` is a throw (missing `OPENAI_API_KEY` or a failed
model call) caught as 500, `Except.ok t` is a completed call whose
`output_text` is `t`; a missing `output_text` falls back to `""` via `??`.
The result is the response status plus the answer or message body. -/
def qaHandler (req : QaRequest) (upstream : Except Unit (Option String)) : Nat × String :=
  if isBlank req.question || isBlank req.contextText then
    (400, "Missing question or contextText")
  else if !(req.answerLang == some "ar" || req.answerLang == some "fr") then
    (400, "answerLang must be ar or fr")
  else
    match upstream with
    | Except.error _ => (500, "QA failed")
    | Except.ok t => (200, t.getD "")

/-- A fully valid request body. -/
def qaValidReq : QaRequest := ⟨some "q", some "c", some "ar"⟩

/-- All three fields present, non-empty where required, and the language
one of the two accepted values. -/
def qaFieldsValid (req : QaRequest) : Prop :=
  isBlank req.question = false ∧ isBlank req.contextText = false
    ∧ (req.answerLang = some "ar" ∨ req.answerLang = some "fr")

/-- C9 counterexample: with every field valid and the upstream call
succeeding but yielding no `output_text`, the handler answers 200 with an
EMPTY answer string — the handler never enforces non-emptiness. -/
theorem qa_ok_with_empty_answer :
    (qaHandler qaValidReq (Except.ok none)).1 = 200
    ∧ (qaHandler qaValidReq (Except.ok none)).2 = "" := by
  constructor <;> rfl

/-- C9 amended: a missing or empty `question`/`contextText` yields 400; an
omitted `answerLang` or one that is neither "ar" nor "fr" yields 400; with
valid fields an upstream success yields 200 carrying exactly the upstream
answer string (possibly empty), and an upstream failure yields 500. -/
theorem qaHandler_amended_spec (req : QaRequest) (upstream : Except Unit (Option String)) :
    (isBlank req.question = true ∨ isBlank req.contextText = true →
        (qaHandler req upstream).1 = 400)
    ∧ (isBlank req.question = false → isBlank req.contextText = false →
        req.answerLang ≠ some "ar" → req.answerLang ≠ some "fr" →
        (qaHandler req upstream).1 = 400)
    ∧ (qaFieldsValid req → ∀ t : Option String,
        qaHandler req (Except.ok t) = (200, t.getD ""))
    ∧ (qaFieldsValid req → qaHandler req (Except.error ()) = (500, "QA failed")) := by
  refine ⟨?_, ?_, ?_, ?_⟩
  · intro h
    have hcond : (isBlank req.question || isBlank req.contextText) = true := by
      rcases h with h | h <;> simp [h]
    simp [qaHandler, hcond]
  · intro h1 h2 h3 h4
    have hcond : (isBlank req.question || isBlank req.contextText) = false := by
      simp [h1, h2]
    have hlang : (req.answerLang == some "ar" || req.answerLang == some "fr") = false := by
      simp only [Bool.or_eq_false_iff, beq_eq_false_iff_ne, ne_eq]
      exact ⟨h3, h4⟩
    simp [qaHandler, hcond, hlang]
  · rintro ⟨h1, h2, h3⟩ t
    have hcond : (isBlank req.question || isBlank req.contextText) = false := by
      simp [h1, h2]
    have hlang : (req.answerLang == some "ar" || req.answerLang == some "fr") = true := by
      rcases h3 with h | h <;> simp [h]
    simp [qaHandler, hcond, hlang]
  · rintro ⟨h1, h2, h3⟩
    have hcond : (isBlank req.question || isBlank req.contextText) = false := by
      simp [h1, h2]
    have hlang : (req.answerLang == some "ar" || req.answerLang == some "fr") = true := by
      rcases h3 with h | h <;> simp [h]
    simp [qaHandler, hcond, hlang]

theorem qaHandler_amended_spec_witness :
    isBlank (none : Option String) = true
    ∧ (qaHandler ⟨none, some "c", some "ar"⟩ (Except.ok (some "x"))).1 = 400
    ∧ (qaHandler ⟨some "q", some "c", some "de"⟩ (Except.ok (some "x"))).1 = 400
    ∧ qaFieldsValid qaValidReq
    ∧ qaHandler qaValidReq (Except.ok (some "hello")) = (200, "hello")
    ∧ qaHandler qaValidReq (Except.error ()) = (500, "QA failed") := by
  refine ⟨rfl, ?_, ?_, ⟨rfl, rfl, Or.inl rfl⟩, ?_, ?_⟩
  · exact (qaHandler_amended_spec ⟨none, some "c", some "ar"⟩ (Except.ok (some "x"))).1
      (Or.inl rfl)
  · exact (qaHandler_amended_spec ⟨some "q", some "c", some "de"⟩ (Except.ok (some "x"))).2.1
      rfl rfl (by decide) (by decide)
  · exact (qaHandler_amended_spec qaValidReq (Except.ok (some "hello"))).2.2.1
      ⟨rfl, rfl, Or.inl rfl⟩ (some "hello")
  · exact (qaHandler_amended_spec qaValidReq (Except.error ())).2.2.2
      ⟨rfl, rfl, Or.inl rfl⟩
